import Mathlib

/-!
Verification of the katzenpost/spray session core: a shallow embedding of
src/spray.go, src/session/session.go and src/session/workers.go, with
theorems about directory validation, service resolution, the dispatcher,
the startup wait loop and the shutdown latch.
-/

namespace Spray

/-- Values stored in a Kaetzchen parameter map (Go: map[string]interface\x7b\x7d).
The source only ever reads string values via a type assertion, so all
non-string values are grouped as `other`. -/
inductive Value where
  | str (s : String)
  | other
deriving DecidableEq

/-- Parameter map of one Kaetzchen capability entry (Go: map[string]interface\x7b\x7d),
as an association list. -/
abbrev Params := List (String × Value)

/-- Provider entry of a PKI document: its name and its Kaetzchen capability map
(Go: map[string]map[string]interface\x7b\x7d), as an association list. -/
structure Provider where
  name : String
  kaetzchen : List (String × Params)
deriving DecidableEq

/-- PKI directory document: epoch and the provider entries (pki.Document as the
session code reads it). -/
structure Document where
  epoch : Nat
  providers : List Provider
deriving DecidableEq

/-- ServiceDescriptor from session.go: the service name and the provider name. -/
structure ServiceDescriptor where
  name : String
  provider : String
deriving DecidableEq

/-- Constant serviceLoop = "loop" from isDocValid (workers.go). -/
def serviceLoop : String := "loop"

/-- Loop body of isDocValid over doc.Providers: the first provider whose
Kaetzchen map has no "loop" key yields the error. -/
def isDocValidList : List Provider → Except String Unit
  | [] => Except.ok ()
  | p :: rest =>
    if (p.kaetzchen.lookup serviceLoop).isSome then isDocValidList rest
    else Except.error "Error, found a Provider which does not have the loop service."

/-- isDocValid from workers.go lines 37 to 46. -/
def isDocValid (doc : Document) : Except String Unit :=
  isDocValidList doc.providers

/-- Result of the Go type assertion params["endpoint"].(string): some s when the
key is present and holds a string, none (a run-time panic in Go) otherwise. -/
def endpointString (params : Params) : Option String :=
  match params.lookup "endpoint" with
  | some (Value.str s) => some s
  | _ => none

/-- Inner loop of FindServices over one provider Kaetzchen map: keys equal to
the capability produce a descriptor from the "endpoint" parameter; a failed
type assertion is a panic, modelled as none. -/
def scanKaetzchen (capability providerName : String) :
    List (String × Params) → Option (List ServiceDescriptor)
  | [] => some []
  | (cap, params) :: rest =>
    if cap = capability then
      match endpointString params with
      | some s =>
        (scanKaetzchen capability providerName rest).map
          (fun tl => ⟨s, providerName⟩ :: tl)
      | none => none
    else scanKaetzchen capability providerName rest

/-- Outer loop of FindServices over doc.Providers, in slice order. -/
def findServicesList (capability : String) : List Provider → Option (List ServiceDescriptor)
  | [] => some []
  | p :: rest => do
    let here ← scanKaetzchen capability p.name p.kaetzchen
    let there ← findServicesList capability rest
    pure (here ++ there)

/-- FindServices from session.go lines 50 to 64; none models the panic of the
.(string) type assertion on a matching entry. -/
def FindServices (capability : String) (doc : Document) : Option (List ServiceDescriptor) :=
  findServicesList capability doc.providers

/-- Result of GetService: a descriptor, an error return, or a Go panic. -/
inductive GetServiceResult where
  | ok (sd : ServiceDescriptor)
  | err (msg : String)
  | panicked
deriving DecidableEq

/-- Tail of GetService: the empty check and the random pick
serviceDescriptors[mrand.Intn(len(serviceDescriptors))]; the random draw is an
arbitrary natural taken modulo the length, so every index is a possible draw. -/
def selectFrom (sds : List ServiceDescriptor) (draw : Nat) : GetServiceResult :=
  if hs : sds = [] then
    GetServiceResult.err "GetService failure, service not found in pki doc."
  else
    GetServiceResult.ok (sds.get ⟨draw % sds.length, Nat.mod_lt draw (List.length_pos.mpr hs)⟩)

/-- GetService from session.go lines 204 to 214; currentDoc is what
s.minclient.CurrentDocument() returns (none when nil). -/
def GetService (currentDoc : Option Document) (serviceName : String) (draw : Nat) :
    GetServiceResult :=
  match currentDoc with
  | none => GetServiceResult.err "pki doc is nil"
  | some doc =>
    match FindServices serviceName doc with
    | none => GetServiceResult.panicked
    | some sds => selectFrom sds draw

/-- workerOp values of workers.go: opIsEmpty, opConnStatusChanged, opNewDocument. -/
inductive WorkerOp where
  | isEmpty
  | connStatusChanged (isConnected : Bool)
  | newDocument (doc : Document)
deriving DecidableEq

/-- Predicate used to state properties of operation traces: whether an
operation is an opNewDocument. -/
def isNewDocumentOp : WorkerOp → Bool
  | WorkerOp.newDocument _ => true
  | _ => false

/-- Constant skewWarnDelta = 2 * time.Minute from connStatusChange, in
nanoseconds (Go time.Duration units). -/
def skewWarnDelta : Int := 2 * 60 * 1000000000

/-- Session-state fields touched by the dispatcher (session.go Session struct):
the online-at timestamp and the hasPKIDoc flag. -/
structure SessionState where
  onlineAt : Nat
  hasPKIDoc : Bool
deriving DecidableEq

/-- connStatusChange from workers.go lines 48 to 68: now is time.Now(), skew is
s.minclient.ClockSkew() in nanoseconds. Returns the new state, whether the
warning branch was taken, and the functions boolean return value. -/
def connStatusChange (now : Nat) (skew : Int) (isConnected : Bool) (st : SessionState) :
    SessionState × Bool × Bool :=
  if isConnected then
    let absSkew := if skew < 0 then -skew else skew
    ({ st with onlineAt := now }, decide (skewWarnDelta < absSkew), true)
  else (st, false, false)

/-- Observable effect of one dispatcher step: whether a clock-skew warning was
logged and how many times isDocValid was invoked. -/
structure DispatchEffect where
  warned : Bool
  validationsRun : Nat
deriving DecidableEq

/-- One iteration body of sessionWorker (workers.go lines 70 to 95) on a
received operation: opIsEmpty continues, opConnStatusChanged calls
connStatusChange, and the opNewDocument case has an empty body. -/
def sessionWorkerStep (now : Nat) (skew : Int) (op : WorkerOp) (st : SessionState) :
    SessionState × DispatchEffect :=
  match op with
  | WorkerOp.isEmpty => (st, ⟨false, 0⟩)
  | WorkerOp.connStatusChanged b =>
    let r := connStatusChange now skew b st
    (r.1, ⟨r.2.1, 0⟩)
  | WorkerOp.newDocument _ => (st, ⟨false, 0⟩)

/-- Sources of the select in awaitFirstPKIDoc: ctx.Done(), s.HaltCh(),
time.After(delay), and s.opCh. -/
inductive SelSrc where
  | ctx
  | halt
  | timer
  | op
deriving DecidableEq

/-- Minimum of an optional deadline and a time. -/
def minO : Option Nat → Nat → Nat
  | none, b => b
  | some a, b => min a b

/-- Earliest-ready case of the four-way select, with a fixed tie order
(ctx, halt, timer, op); Go resolves simultaneous readiness randomly, and the
theorems below only use inputs where the winner is unique. -/
def pick (ctxDone haltAt : Option Nat) (timer : Nat) (tOp : Option Nat) : SelSrc × Nat :=
  let w := minO ctxDone (minO haltAt (minO tOp timer))
  if ctxDone = some w then (SelSrc.ctx, w)
  else if haltAt = some w then (SelSrc.halt, w)
  else if timer = w then (SelSrc.timer, w)
  else (SelSrc.op, w)

/-- Errors awaitFirstPKIDoc and New can return. -/
inductive StartError where
  | ctxDone
  | halted
  | timeout
  | invalidDoc
deriving DecidableEq

/-- Decidable equality for Except, used by the outcome structures below. -/
instance instDecEqExcept {ε α : Type} [DecidableEq ε] [DecidableEq α] :
    DecidableEq (Except ε α)
  | Except.ok a, Except.ok b =>
    if h : a = b then Decidable.isTrue (h ▸ rfl)
    else Decidable.isFalse (fun hc => h (Except.ok.inj hc))
  | Except.ok _, Except.error _ => Decidable.isFalse (fun hc => Except.noConfusion hc)
  | Except.error _, Except.ok _ => Decidable.isFalse (fun hc => Except.noConfusion hc)
  | Except.error a, Except.error b =>
    if h : a = b then Decidable.isTrue (h ▸ rfl)
    else Decidable.isFalse (fun hc => h (Except.error.inj hc))

/-- Outcome of the startup wait: the returned document or error, the number of
errors pushed onto fatalErrCh, and the return time. -/
structure AwaitOutcome where
  result : Except StartError Document
  fatalPushes : Nat
  retTime : Nat
deriving DecidableEq

/-- awaitFirstPKIDoc from session.go lines 162 to 190, over a timed trace of
operations (arrival times are strictly increasing). Each loop iteration
re-creates the time.After timer, so the timer restarts at the time the last
operation was drained. A non-document operation hits the default branch and
continues; an opNewDocument is validated with isDocValid: failure pushes one
error to fatalErrCh and returns it, success returns the document. -/
def awaitLoop (delay : Nat) (ctxDone haltAt : Option Nat) :
    Nat → List (Nat × WorkerOp) → AwaitOutcome
  | now, [] =>
    match pick ctxDone haltAt (now + delay) none with
    | (SelSrc.ctx, w) => ⟨Except.error StartError.ctxDone, 0, w⟩
    | (SelSrc.halt, w) => ⟨Except.error StartError.halted, 0, w⟩
    | _ => ⟨Except.error StartError.timeout, 0, now + delay⟩
  | now, (t, op) :: rest =>
    match pick ctxDone haltAt (now + delay) (some t) with
    | (SelSrc.ctx, w) => ⟨Except.error StartError.ctxDone, 0, w⟩
    | (SelSrc.halt, w) => ⟨Except.error StartError.halted, 0, w⟩
    | (SelSrc.timer, w) => ⟨Except.error StartError.timeout, 0, w⟩
    | (SelSrc.op, _) =>
      match op with
      | WorkerOp.newDocument d =>
        match isDocValid d with
        | Except.ok _ => ⟨Except.ok d, 0, t⟩
        | Except.error _ => ⟨Except.error StartError.invalidDoc, 1, t⟩
      | _ => awaitLoop delay ctxDone haltAt t rest

/-- Workers defined in workers.go. -/
inductive WorkerId where
  | sessionWorker
  | cryptoWorker
  | sendWorker
deriving DecidableEq

/-- Outcome of session.New: its return value, the fatal pushes of the startup
wait, and the workers it launched before returning. -/
structure NewOutcome where
  result : Except StartError Document
  fatalPushes : Nat
  launched : List WorkerId
deriving DecidableEq

/-- Tail of session.New (session.go lines 151 to 160): after the external setup
(PKI clients, key load, minclient construction) succeeds, New blocks in
awaitFirstPKIDoc; on error it returns that error having launched nothing, and
on success the only s.Go call in the repository is s.Go(s.sendWorker). -/
def NewSession (delay : Nat) (ctxDone haltAt : Option Nat) (t0 : Nat)
    (ops : List (Nat × WorkerOp)) : NewOutcome :=
  let a := awaitLoop delay ctxDone haltAt t0 ops
  match a.result with
  | Except.error e => ⟨Except.error e, a.fatalPushes, []⟩
  | Except.ok d => ⟨Except.ok d, a.fatalPushes, [WorkerId.sendWorker]⟩

/-- Bounded-gap predicate on a timed trace: each operation arrives strictly
before the timer of the iteration that receives it expires. -/
def arrivesInTime (delay : Nat) : Nat → List (Nat × WorkerOp) → Bool
  | _, [] => true
  | now, (t, _) :: rest => decide (t < now + delay) && arrivesInTime delay t rest

/-- First document carried by an opNewDocument of a trace. -/
def firstDoc : List (Nat × WorkerOp) → Option Document
  | [] => none
  | (_, WorkerOp.newDocument d) :: _ => some d
  | _ :: rest => firstDoc rest

/-- Go context values reaching the rate limiter in this repository: onSendPacket
constructs context.Background(); a context derived from the halt signal is the
alternative the spec asks for but the source never builds. -/
inductive GoContext where
  | background
  | cancelOnHalt
deriving DecidableEq

/-- Whether cancelling the halt signal cancels a wait on this context:
context.Background() is never cancelled. -/
def contextRespondsToHalt : GoContext → Bool
  | GoContext.background => false
  | GoContext.cancelOnHalt => true

/-- Context that onSendPacket (workers.go lines 125 to 132) passes to
s.limiter.Wait: ctx := context.Background(). -/
def onSendPacketContext : GoContext := GoContext.background

/-- Whether a limiter.Wait(ctx) blocked for a token is interrupted when the
halt signal fires: only when the context responds to halt. -/
def limiterWaitInterruptedByHalt (ctx : GoContext) (haltSignalled : Bool) : Bool :=
  haltSignalled && contextRespondsToHalt ctx

/-- Teardown actions of Spray.halt (spray.go lines 74 to 81), in program order. -/
inductive TeardownEvent where
  | stopSession
  | closeFatalCh
  | closeHaltedCh
deriving DecidableEq

/-- State of a Spray instance relevant to shutdown: the sync.Once latch, whether
c.session is non-nil, the two channels, and the ordered teardown log. -/
structure SprayState where
  haltOnceDone : Bool
  sessionPresent : Bool
  fatalChClosed : Bool
  haltedChClosed : Bool
  teardown : List TeardownEvent
deriving DecidableEq

/-- Spray.halt: stop the session when one is present, close fatalErrCh, close
haltedCh, in that order. -/
def haltTeardown (st : SprayState) : SprayState :=
  { st with
    fatalChClosed := true
    haltedChClosed := true
    teardown := st.teardown ++
      ((if st.sessionPresent then [TeardownEvent.stopSession] else []) ++
        [TeardownEvent.closeFatalCh, TeardownEvent.closeHaltedCh]) }

/-- Spray.Shutdown (spray.go lines 65 to 72): c.haltOnce.Do(func() \x7b c.halt() \x7d).
The sync.Once latch makes any call after the first a no-op. -/
def Shutdown (st : SprayState) : SprayState :=
  if st.haltOnceDone then st
  else haltTeardown { st with haltOnceDone := true }

/-- Spray.Wait: a receive on haltedCh unblocks exactly when the channel has been
closed; it reads no other state. -/
def waitUnblocked (st : SprayState) : Bool :=
  st.haltedChClosed

/-! ## Helper lemmas -/

/-- isDocValidList only ever returns ok or the one fixed error message. -/
theorem isDocValidList_ok_or_error (ps : List Provider) :
    isDocValidList ps = Except.ok () ∨
      isDocValidList ps =
        Except.error "Error, found a Provider which does not have the loop service." := by
  induction ps with
  | nil => exact Or.inl rfl
  | cons p rest ih =>
    by_cases h : (p.kaetzchen.lookup serviceLoop).isSome = true
    · simpa [isDocValidList, h] using ih
    · simp [isDocValidList, h]

/-- Acceptance of isDocValidList is exactly presence of the loop key everywhere. -/
theorem isDocValidList_ok_iff (ps : List Provider) :
    isDocValidList ps = Except.ok () ↔
      ∀ p ∈ ps, (p.kaetzchen.lookup serviceLoop).isSome = true := by
  induction ps with
  | nil => simp [isDocValidList]
  | cons p rest ih =>
    by_cases h : (p.kaetzchen.lookup serviceLoop).isSome = true
    · have hstep : isDocValidList (p :: rest) = isDocValidList rest := by
        simp [isDocValidList, h]
      rw [hstep, ih]
      constructor
      · intro hall q hq
        rcases List.mem_cons.mp hq with rfl | hq2
        · exact h
        · exact hall q hq2
      · intro hall q hq
        exact hall q (List.mem_cons_of_mem p hq)
    · have hstep : isDocValidList (p :: rest) =
          Except.error "Error, found a Provider which does not have the loop service." := by
        simp [isDocValidList, h]
      rw [hstep]
      constructor
      · intro hc
        exact absurd hc (by simp)
      · intro hall
        exact absurd (hall p (List.mem_cons_self p rest)) h

/-- Four-way select with no context deadline, no halt, and no pending op: the
timer fires. -/
theorem pick_none_none_no_op (timer : Nat) :
    pick none none timer none = (SelSrc.timer, timer) := by
  simp [pick, minO]

/-- Four-way select with no context deadline and no halt: the timer wins when it
is ready no later than the pending op, otherwise the op is received. -/
theorem pick_none_none_op (timer t : Nat) :
    pick none none timer (some t) =
      if timer ≤ t then (SelSrc.timer, timer) else (SelSrc.op, t) := by
  by_cases h : timer ≤ t
  · simp [pick, minO, h, Nat.min_eq_right h]
  · have ht : t < timer := Nat.lt_of_not_le h
    simp [pick, minO, h, Nat.min_eq_left (Nat.le_of_lt ht), Nat.ne_of_gt ht]

/-- Empty trace: the wait times out one delay after its start. -/
theorem awaitLoop_nil (delay now : Nat) :
    awaitLoop delay none none now [] =
      ⟨Except.error StartError.timeout, 0, now + delay⟩ := by
  simp [awaitLoop, pick_none_none_no_op]

/-- Next op arrives at or after the timer: the wait times out. -/
theorem awaitLoop_cons_timer (delay now t : Nat) (op : WorkerOp)
    (rest : List (Nat × WorkerOp)) (h : now + delay ≤ t) :
    awaitLoop delay none none now ((t, op) :: rest) =
      ⟨Except.error StartError.timeout, 0, now + delay⟩ := by
  simp [awaitLoop, pick_none_none_op, h]

/-- A non-document op arriving before the timer is drained and the loop
continues from its arrival time (with a fresh timer). -/
theorem awaitLoop_cons_drain (delay now t : Nat) (op : WorkerOp)
    (rest : List (Nat × WorkerOp)) (h : t < now + delay)
    (hop : isNewDocumentOp op = false) :
    awaitLoop delay none none now ((t, op) :: rest) =
      awaitLoop delay none none t rest := by
  have h2 : ¬ (now + delay ≤ t) := Nat.not_le_of_lt h
  cases op with
  | isEmpty => simp [awaitLoop, pick_none_none_op, h2]
  | connStatusChanged b => simp [awaitLoop, pick_none_none_op, h2]
  | newDocument d => simp [isNewDocumentOp] at hop

/-- A document op arriving before the timer is received and validated. -/
theorem awaitLoop_cons_doc (delay now t : Nat) (d : Document)
    (rest : List (Nat × WorkerOp)) (h : t < now + delay) :
    awaitLoop delay none none now ((t, WorkerOp.newDocument d) :: rest) =
      match isDocValid d with
      | Except.ok _ => ⟨Except.ok d, 0, t⟩
      | Except.error _ => ⟨Except.error StartError.invalidDoc, 1, t⟩ := by
  have h2 : ¬ (now + delay ≤ t) := Nat.not_le_of_lt h
  simp [awaitLoop, pick_none_none_op, h2]

/-- New launches nothing when the startup wait fails. -/
theorem newSession_congr (delay : Nat) (c h : Option Nat) (t0 t1 : Nat)
    (ops0 ops1 : List (Nat × WorkerOp))
    (he : awaitLoop delay c h t0 ops0 = awaitLoop delay c h t1 ops1) :
    NewSession delay c h t0 ops0 = NewSession delay c h t1 ops1 := by
  simp [NewSession, he]

/-- Inversion of the "endpoint" type assertion: a string came from a string
parameter value. -/
theorem endpointString_eq_some (params : Params) (s : String)
    (h : endpointString params = some s) :
    params.lookup "endpoint" = some (Value.str s) := by
  revert h
  unfold endpointString
  cases params.lookup "endpoint" with
  | none =>
    intro h
    simp at h
  | some v =>
    cases v with
    | str t =>
      intro h
      simp only [Option.some.injEq] at h
      rw [h]
    | other =>
      intro h
      simp at h

/-- One step of the Kaetzchen scan at a matching key. -/
theorem scanKaetzchen_cons_match (cap pn : String) (params : Params)
    (ks : List (String × Params)) :
    scanKaetzchen cap pn ((cap, params) :: ks) =
      match endpointString params with
      | some s => (scanKaetzchen cap pn ks).map (fun tl => ⟨s, pn⟩ :: tl)
      | none => none := by
  simp [scanKaetzchen]

/-- One step of the Kaetzchen scan at a non-matching key. -/
theorem scanKaetzchen_cons_nomatch (cap pn k : String) (params : Params)
    (ks : List (String × Params)) (hk : k ≠ cap) :
    scanKaetzchen cap pn ((k, params) :: ks) = scanKaetzchen cap pn ks := by
  simp [scanKaetzchen, hk]

/-- Scan of one provider with no matching capability key yields no services. -/
theorem scanKaetzchen_no_match (cap pn : String) (ks : List (String × Params))
    (h : ∀ e ∈ ks, e.1 ≠ cap) : scanKaetzchen cap pn ks = some [] := by
  induction ks with
  | nil => rfl
  | cons e rest ih =>
    obtain ⟨k, params⟩ := e
    have hk : k ≠ cap := h (k, params) (by simp)
    simp only [scanKaetzchen, if_neg hk]
    exact ih (fun e he => h e (by simp [he]))

/-- FindServices over providers none of which advertises the capability yields
no services. -/
theorem findServicesList_no_match (cap : String) (ps : List Provider)
    (h : ∀ p ∈ ps, ∀ e ∈ p.kaetzchen, e.1 ≠ cap) :
    findServicesList cap ps = some [] := by
  induction ps with
  | nil => rfl
  | cons p rest ih =>
    simp [findServicesList,
      scanKaetzchen_no_match cap p.name p.kaetzchen (h p (by simp)),
      ih (fun q hq => h q (by simp [hq]))]

/-- Every descriptor a provider scan returns carries that provider name and the
string "endpoint" parameter of a matching capability entry. -/
theorem scanKaetzchen_some_mem (cap pn : String) (ks : List (String × Params))
    (sds : List ServiceDescriptor) (h : scanKaetzchen cap pn ks = some sds) :
    ∀ sd ∈ sds, sd.provider = pn ∧
      ∃ params, (cap, params) ∈ ks ∧
        params.lookup "endpoint" = some (Value.str sd.name) := by
  induction ks generalizing sds with
  | nil =>
    simp [scanKaetzchen] at h
    subst h
    simp
  | cons e rest ih =>
    obtain ⟨k, params⟩ := e
    by_cases hk : k = cap
    · subst hk
      rw [scanKaetzchen_cons_match] at h
      cases hep : endpointString params with
      | none =>
        rw [hep] at h
        simp at h
      | some s =>
        rw [hep] at h
        cases hr : scanKaetzchen k pn rest with
        | none =>
          rw [hr] at h
          simp at h
        | some tl =>
          rw [hr] at h
          simp at h
          subst h
          intro sd hsd
          rcases List.mem_cons.mp hsd with rfl | htl
          · exact ⟨rfl, params, by simp, endpointString_eq_some params s hep⟩
          · obtain ⟨h1, ps, hps, hlk⟩ := ih tl hr sd htl
            exact ⟨h1, ps, by simp [hps], hlk⟩
    · rw [scanKaetzchen_cons_nomatch cap pn k params rest hk] at h
      intro sd hsd
      obtain ⟨h1, ps, hps, hlk⟩ := ih sds h sd hsd
      exact ⟨h1, ps, by simp [hps], hlk⟩

/-- Every descriptor FindServices returns names a provider that advertises the
capability and that entry's string "endpoint" parameter. -/
theorem findServicesList_some_mem (cap : String) (ps : List Provider)
    (sds : List ServiceDescriptor) (h : findServicesList cap ps = some sds) :
    ∀ sd ∈ sds, ∃ p ∈ ps, sd.provider = p.name ∧
      ∃ params, (cap, params) ∈ p.kaetzchen ∧
        params.lookup "endpoint" = some (Value.str sd.name) := by
  induction ps generalizing sds with
  | nil =>
    simp [findServicesList] at h
    subst h
    simp
  | cons p rest ih =>
    simp only [findServicesList] at h
    cases hh : scanKaetzchen cap p.name p.kaetzchen with
    | none =>
      rw [hh] at h
      simp at h
    | some here =>
      rw [hh] at h
      cases ht : findServicesList cap rest with
      | none =>
        rw [ht] at h
        simp at h
      | some there =>
        rw [ht] at h
        simp at h
        subst h
        intro sd hsd
        rcases List.mem_append.mp hsd with hmem | hmem
        · have hp := scanKaetzchen_some_mem cap p.name p.kaetzchen here hh sd hmem
          exact ⟨p, by simp, hp.1, hp.2⟩
        · obtain ⟨q, hq, hrest⟩ := ih there ht sd hmem
          exact ⟨q, by simp [hq], hrest⟩

/-- Scan of one provider panics exactly when a matching capability entry lacks a
string "endpoint" parameter. -/
theorem scanKaetzchen_none_iff (cap pn : String) (ks : List (String × Params)) :
    scanKaetzchen cap pn ks = none ↔
      ∃ e ∈ ks, e.1 = cap ∧ endpointString e.2 = none := by
  induction ks with
  | nil => simp [scanKaetzchen]
  | cons e rest ih =>
    obtain ⟨k, params⟩ := e
    by_cases hk : k = cap
    · subst hk
      rw [scanKaetzchen_cons_match]
      by_cases hep : endpointString params = none
      · rw [hep]
        constructor
        · intro _
          exact ⟨(k, params), by simp, rfl, hep⟩
        · intro _
          rfl
      · obtain ⟨s, hs⟩ : ∃ s, endpointString params = some s := by
          cases hx : endpointString params with
          | none => exact absurd hx hep
          | some s => exact ⟨s, rfl⟩
        rw [hs]
        constructor
        · intro hnone
          have hmap : (scanKaetzchen k pn rest).map
              (fun tl => (⟨s, pn⟩ : ServiceDescriptor) :: tl) = none := hnone
          have hrn : scanKaetzchen k pn rest = none := by
            cases hr : scanKaetzchen k pn rest with
            | none => rfl
            | some tl =>
              rw [hr] at hmap
              simp at hmap
          obtain ⟨e, he, h1, h2⟩ := ih.mp hrn
          exact ⟨e, by simp [he], h1, h2⟩
        · rintro ⟨e, he, h1, h2⟩
          rcases List.mem_cons.mp he with rfl | he2
          · rw [hs] at h2
            exact absurd h2 (by simp)
          · have hrn : scanKaetzchen k pn rest = none := ih.mpr ⟨e, he2, h1, h2⟩
            show (scanKaetzchen k pn rest).map
              (fun tl => (⟨s, pn⟩ : ServiceDescriptor) :: tl) = none
            rw [hrn]
            rfl
    · rw [scanKaetzchen_cons_nomatch cap pn k params rest hk, ih]
      constructor
      · rintro ⟨e, he, h1, h2⟩
        exact ⟨e, by simp [he], h1, h2⟩
      · rintro ⟨e, he, h1, h2⟩
        rcases List.mem_cons.mp he with rfl | he2
        · exact absurd h1 hk
        · exact ⟨e, he2, h1, h2⟩

/-- FindServices panics exactly when some provider has a matching capability
entry without a string "endpoint" parameter. -/
theorem findServicesList_none_iff (cap : String) (ps : List Provider) :
    findServicesList cap ps = none ↔
      ∃ p ∈ ps, ∃ e ∈ p.kaetzchen, e.1 = cap ∧ endpointString e.2 = none := by
  induction ps with
  | nil => simp [findServicesList]
  | cons p rest ih =>
    cases hh : scanKaetzchen cap p.name p.kaetzchen with
    | none =>
      have hl : findServicesList cap (p :: rest) = none := by
        simp [findServicesList, hh]
      rw [hl]
      have hex := (scanKaetzchen_none_iff cap p.name p.kaetzchen).mp hh
      constructor
      · intro _
        exact ⟨p, by simp, hex⟩
      · intro _
        rfl
    | some here =>
      cases ht : findServicesList cap rest with
      | none =>
        have hl : findServicesList cap (p :: rest) = none := by
          simp [findServicesList, hh, ht]
        rw [hl]
        obtain ⟨q, hq, hbad⟩ := ih.mp ht
        constructor
        · intro _
          exact ⟨q, by simp [hq], hbad⟩
        · intro _
          rfl
      | some there =>
        have hl : findServicesList cap (p :: rest) = some (here ++ there) := by
          simp [findServicesList, hh, ht]
        rw [hl]
        have h1 : ¬ ∃ e ∈ p.kaetzchen, e.1 = cap ∧ endpointString e.2 = none := by
          rw [← scanKaetzchen_none_iff cap p.name]
          simp [hh]
        have h2 : ¬ ∃ q ∈ rest, ∃ e ∈ q.kaetzchen, e.1 = cap ∧ endpointString e.2 = none := by
          rw [← ih]
          simp [ht]
        constructor
        · intro hc
          exact absurd hc (by simp)
        · rintro ⟨q, hq, hbad⟩
          rcases List.mem_cons.mp hq with rfl | hq2
          · exact absurd hbad h1
          · exact absurd ⟨q, hq2, hbad⟩ h2

/-- GetService with a document whose matches computed without a panic defers to
the selection tail. -/
theorem getService_eq_selectFrom (doc : Document) (cap : String) (draw : Nat)
    (sds : List ServiceDescriptor) (h : FindServices cap doc = some sds) :
    GetService (some doc) cap draw = selectFrom sds draw := by
  simp [GetService, h]

/-- Selection from the empty match list is the NotFound error return. -/
theorem selectFrom_nil (draw : Nat) :
    selectFrom [] draw =
      GetServiceResult.err "GetService failure, service not found in pki doc." := rfl

/-- Selection from a non-empty match list returns the element at the draw modulo
the length. -/
theorem selectFrom_ne_nil (sds : List ServiceDescriptor) (draw : Nat) (hs : sds ≠ []) :
    selectFrom sds draw =
      GetServiceResult.ok
        (sds.get ⟨draw % sds.length, Nat.mod_lt draw (List.length_pos.mpr hs)⟩) := by
  simp [selectFrom, hs]

/-! ## Claim theorems -/

/-- C1: isDocValid succeeds iff every provider entry advertises the "loop"
capability; any single provider lacking it fails the whole document, for any
number of providers, and the empty provider list is accepted. -/
theorem isDocValid_ok_iff_all_loop (doc : Document) :
    (isDocValid doc = Except.ok () ↔
      ∀ p ∈ doc.providers, (p.kaetzchen.lookup serviceLoop).isSome = true) ∧
    ((∃ p ∈ doc.providers, (p.kaetzchen.lookup serviceLoop).isSome = false) →
      isDocValid doc =
        Except.error "Error, found a Provider which does not have the loop service.") ∧
    (doc.providers = [] → isDocValid doc = Except.ok ()) := by
  refine ⟨isDocValidList_ok_iff doc.providers, ?_, ?_⟩
  · rintro ⟨p, hp, hbad⟩
    rcases isDocValidList_ok_or_error doc.providers with hok | herr
    · have := (isDocValidList_ok_iff doc.providers).mp hok p hp
      rw [this] at hbad
      exact absurd hbad (by simp)
    · exact herr
  · intro hnil
    unfold isDocValid
    rw [hnil]
    rfl

/-- C2: evaluation of the launch behavior of session.New on a run whose first
operation is a valid document: the only worker launched is sendWorker; the
sessionWorker and cryptoWorker loops are never started. -/
theorem newStart_launches_only_sendWorker :
    NewSession 10 none none 0
        [(1, WorkerOp.newDocument
          ⟨3, [⟨"pL", [("loop", [("endpoint", Value.str "eL")])]⟩]⟩)] =
      ⟨Except.ok ⟨3, [⟨"pL", [("loop", [("endpoint", Value.str "eL")])]⟩]⟩, 0,
        [WorkerId.sendWorker]⟩ ∧
    WorkerId.sessionWorker ∉
      (NewSession 10 none none 0
        [(1, WorkerOp.newDocument
          ⟨3, [⟨"pL", [("loop", [("endpoint", Value.str "eL")])]⟩]⟩)]).launched ∧
    WorkerId.cryptoWorker ∉
      (NewSession 10 none none 0
        [(1, WorkerOp.newDocument
          ⟨3, [⟨"pL", [("loop", [("endpoint", Value.str "eL")])]⟩]⟩)]).launched := by
  decide

/-- C3: when the first document of the startup trace fails validation, New
returns the validation error, exactly one error is pushed onto the fatal-error
channel, and no worker is launched. -/
theorem newStart_invalid_doc (delay t0 : Nat) (ops : List (Nat × WorkerOp))
    (d : Document) (hin : arrivesInTime delay t0 ops = true)
    (hfd : firstDoc ops = some d)
    (hinv : isDocValid d ≠ Except.ok ()) :
    NewSession delay none none t0 ops =
      ⟨Except.error StartError.invalidDoc, 1, []⟩ := by
  induction ops generalizing t0 with
  | nil => simp [firstDoc] at hfd
  | cons e rest ih =>
    obtain ⟨t, op⟩ := e
    simp only [arrivesInTime, Bool.and_eq_true, decide_eq_true_eq] at hin
    obtain ⟨hlt, hrest⟩ := hin
    cases op with
    | newDocument dd =>
      have hd : dd = d := by simpa [firstDoc] using hfd
      subst hd
      cases hex : isDocValid dd with
      | ok u => cases u; exact absurd hex hinv
      | error msg =>
        have ha : awaitLoop delay none none t0 ((t, WorkerOp.newDocument dd) :: rest) =
            ⟨Except.error StartError.invalidDoc, 1, t⟩ := by
          rw [awaitLoop_cons_doc delay t0 t dd rest hlt, hex]
        simp [NewSession, ha]
    | isEmpty =>
      have hstep := awaitLoop_cons_drain delay t0 t WorkerOp.isEmpty rest hlt rfl
      have hfd2 : firstDoc rest = some d := by simpa [firstDoc] using hfd
      exact (newSession_congr delay none none t0 t _ rest hstep).trans
        (ih t hrest hfd2)
    | connStatusChanged b =>
      have hstep := awaitLoop_cons_drain delay t0 t (WorkerOp.connStatusChanged b) rest hlt rfl
      have hfd2 : firstDoc rest = some d := by simpa [firstDoc] using hfd
      exact (newSession_congr delay none none t0 t _ rest hstep).trans
        (ih t hrest hfd2)

/-- C3 witness: a run draining one connectivity change and then receiving at
time 4 a document whose only provider lacks the loop service. -/
theorem newStart_invalid_doc_witness :
    NewSession 10 none none 0
        [(2, WorkerOp.connStatusChanged true),
         (4, WorkerOp.newDocument ⟨4, [⟨"pX", []⟩]⟩)] =
      ⟨Except.error StartError.invalidDoc, 1, []⟩ :=
  newStart_invalid_doc 10 0 _ ⟨4, [⟨"pX", []⟩]⟩ (by decide) rfl (by decide)

/-- C4 counterexample: with delay 10 and a connectivity operation drained at
time 5, the wait times out at time 15, later than the single deadline 0 + 10:
the drained operation restarted the timer, so the startup wait is not bounded by
the single configured deadline. -/
theorem awaitFirstPKIDoc_deadline_reset_cex :
    awaitLoop 10 none none 0 [(5, WorkerOp.connStatusChanged true)] =
      ⟨Except.error StartError.timeout, 0, 15⟩ ∧ 0 + 10 < 15 := by
  decide

/-- C4 amended: on any trace that never delivers a document (no context
cancellation, no halt), New returns a timeout error, pushes no fatal error and
launches no worker; the timeout fires one delay after the start or after the
most recently drained operation, since each drained operation restarts the
time.After timer. -/
theorem awaitFirstPKIDoc_timeout_no_workers (delay t0 : Nat)
    (ops : List (Nat × WorkerOp))
    (hnd : (ops.all fun e => !isNewDocumentOp e.2) = true) :
    (awaitLoop delay none none t0 ops).result = Except.error StartError.timeout ∧
    (awaitLoop delay none none t0 ops).fatalPushes = 0 ∧
    (∃ w ∈ t0 :: ops.map Prod.fst,
      (awaitLoop delay none none t0 ops).retTime = w + delay) ∧
    (NewSession delay none none t0 ops).launched = [] := by
  induction ops generalizing t0 with
  | nil =>
    refine ⟨by simp [awaitLoop_nil], by simp [awaitLoop_nil],
      ⟨t0, by simp, by simp [awaitLoop_nil]⟩, ?_⟩
    simp [NewSession, awaitLoop_nil]
  | cons e rest ih =>
    obtain ⟨t, op⟩ := e
    simp only [List.all_cons, Bool.and_eq_true, Bool.not_eq_true'] at hnd
    obtain ⟨hop, hrest⟩ := hnd
    by_cases hle : t0 + delay ≤ t
    · have ha := awaitLoop_cons_timer delay t0 t op rest hle
      refine ⟨by simp [ha], by simp [ha], ⟨t0, by simp, by simp [ha]⟩, ?_⟩
      simp [NewSession, ha]
    · have hlt : t < t0 + delay := Nat.lt_of_not_le hle
      have ha := awaitLoop_cons_drain delay t0 t op rest hlt hop
      obtain ⟨ih1, ih2, ⟨w, hw, hwt⟩, ih4⟩ := ih t hrest
      refine ⟨by rw [ha]; exact ih1, by rw [ha]; exact ih2, ?_, ?_⟩
      · refine ⟨w, ?_, by rw [ha]; exact hwt⟩
        rcases List.mem_cons.mp hw with rfl | hw2
        · simp
        · simp only [List.map_cons, List.mem_cons]
          exact Or.inr (Or.inr (by simpa using hw2))
      · rw [newSession_congr delay none none t0 t ((t, op) :: rest) rest ha]
        exact ih4

/-- C4 witness: delay 7 starting at time 2, one empty operation drained at
time 3 and no document: timeout at 3 + 7 with nothing launched. -/
theorem awaitFirstPKIDoc_timeout_no_workers_witness :
    (awaitLoop 7 none none 2 [(3, WorkerOp.isEmpty)]).result =
      Except.error StartError.timeout ∧
    (awaitLoop 7 none none 2 [(3, WorkerOp.isEmpty)]).fatalPushes = 0 ∧
    (∃ w ∈ 2 :: [((3 : Nat), WorkerOp.isEmpty)].map Prod.fst,
      (awaitLoop 7 none none 2 [(3, WorkerOp.isEmpty)]).retTime = w + 7) ∧
    (NewSession 7 none none 2 [(3, WorkerOp.isEmpty)]).launched = [] :=
  awaitFirstPKIDoc_timeout_no_workers 7 2 [(3, WorkerOp.isEmpty)] (by decide)

/-- C5 counterexample: a document whose only provider advertises "loop" with a
non-string "endpoint" parameter makes FindServices hit the failed .(string)
type assertion, so GetService panics instead of returning NotFound. -/
theorem getService_endpoint_assertion_cex :
    FindServices "loop" ⟨5, [⟨"p1", [("loop", [("endpoint", Value.other)])]⟩]⟩ = none ∧
    GetService (some ⟨5, [⟨"p1", [("loop", [("endpoint", Value.other)])]⟩]⟩) "loop" 0 =
      GetServiceResult.panicked := by
  decide

/-- C5 amended: provided FindServices computes its match list without a panic
(every matching entry has a string "endpoint"), a capability absent from the
document gives the empty sequence, GetService returns NotFound exactly when the
sequence is empty and never otherwise, every returned descriptor is one of the
matches, and every match is returned under some random draw. -/
theorem getService_select_spec (cap : String) (doc : Document)
    (sds : List ServiceDescriptor) (h : FindServices cap doc = some sds) :
    ((∀ p ∈ doc.providers, ∀ e ∈ p.kaetzchen, e.1 ≠ cap) → sds = []) ∧
    (∀ draw : Nat, (GetService (some doc) cap draw =
      GetServiceResult.err "GetService failure, service not found in pki doc." ↔
        sds = [])) ∧
    (∀ draw : Nat, sds ≠ [] →
      ∃ i : Fin sds.length,
        GetService (some doc) cap draw = GetServiceResult.ok (sds.get i)) ∧
    (∀ j : Fin sds.length,
      GetService (some doc) cap j.val = GetServiceResult.ok (sds.get j)) := by
  refine ⟨?_, ?_, ?_, ?_⟩
  · intro habs
    have hn := findServicesList_no_match cap doc.providers habs
    rw [FindServices] at h
    rw [hn] at h
    exact (Option.some.inj h).symm
  · intro draw
    rw [getService_eq_selectFrom doc cap draw sds h]
    by_cases hs : sds = []
    · subst hs; simp [selectFrom_nil]
    · rw [selectFrom_ne_nil sds draw hs]
      simp [hs]
  · intro draw hs
    exact ⟨⟨draw % sds.length, Nat.mod_lt draw (List.length_pos.mpr hs)⟩,
      (getService_eq_selectFrom doc cap draw sds h).trans (selectFrom_ne_nil sds draw hs)⟩
  · intro j
    have hs : sds ≠ [] := by
      intro hc
      rw [hc] at j
      exact absurd j.isLt (by simp)
    rw [getService_eq_selectFrom doc cap j.val sds h, selectFrom_ne_nil sds j.val hs]
    have hj : (⟨j.val % sds.length, Nat.mod_lt j.val (List.length_pos.mpr hs)⟩ :
        Fin sds.length) = j :=
      Fin.ext (Nat.mod_eq_of_lt j.isLt)
    rw [hj]

/-- C5 witness: a document with two providers advertising "loop"; with draw 1
the second match is returned. -/
theorem getService_select_spec_witness :
    GetService
        (some ⟨9, [⟨"pA", [("loop", [("endpoint", Value.str "eA")])]⟩,
                   ⟨"pB", [("loop", [("endpoint", Value.str "eB")])]⟩]⟩)
        "loop" 1 =
      GetServiceResult.ok ⟨"eB", "pB"⟩ :=
  (getService_select_spec "loop"
      ⟨9, [⟨"pA", [("loop", [("endpoint", Value.str "eA")])]⟩,
           ⟨"pB", [("loop", [("endpoint", Value.str "eB")])]⟩]⟩
      [⟨"eA", "pA"⟩, ⟨"eB", "pB"⟩] rfl).2.2.2 ⟨1, by decide⟩

/-- C6 counterexample: the dispatcher step on a NewDirectoryDocument operation
returns the session state unchanged, and its output does not even depend on the
received document, so no retained reference is updated by the dispatcher. -/
theorem sessionWorker_newDocument_cex :
    sessionWorkerStep 0 0 (WorkerOp.newDocument ⟨1, []⟩) ⟨0, false⟩ =
      (⟨0, false⟩, ⟨false, 0⟩) ∧
    sessionWorkerStep 0 0 (WorkerOp.newDocument ⟨1, []⟩) ⟨0, false⟩ =
      sessionWorkerStep 0 0 (WorkerOp.newDocument ⟨2, []⟩) ⟨0, false⟩ ∧
    (⟨1, []⟩ : Document) ≠ ⟨2, []⟩ := by
  decide

/-- C6 amended: during steady state the dispatcher treats every
NewDirectoryDocument operation as a no-op: the session state it owns is
unchanged, no warning is logged and validation is not re-run; the
current-document reference consulted by GetService is retained by the external
transport client, not by the dispatcher. -/
theorem sessionWorker_newDocument_noop (now : Nat) (skew : Int) (d : Document)
    (st : SessionState) :
    sessionWorkerStep now skew (WorkerOp.newDocument d) st = (st, ⟨false, 0⟩) := rfl

/-- C7: the context onSendPacket passes to limiter.Wait is context.Background(),
which does not respond to the halt signal, so a worker blocked acquiring a
rate-limiter token is not interruptible by halt; only a halt-derived context
would be. -/
theorem onSendPacket_wait_ignores_halt :
    onSendPacketContext = GoContext.background ∧
    limiterWaitInterruptedByHalt onSendPacketContext true = false ∧
    (∀ ctx : GoContext,
      limiterWaitInterruptedByHalt ctx true = true ↔ contextRespondsToHalt ctx = true) := by
  refine ⟨rfl, rfl, ?_⟩
  intro ctx
  cases ctx <;> simp [limiterWaitInterruptedByHalt, contextRespondsToHalt]

/-- C8 counterexample: at an absolute clock skew of exactly two minutes the code
takes the debug branch and logs no warning, because the comparison is the strict
absSkew > skewWarnDelta; the claim calls for a warning at skew greater than or
equal to two minutes. -/
theorem connStatusChange_boundary_cex :
    skewWarnDelta = 2 * 60 * 1000000000 ∧
    connStatusChange 7 skewWarnDelta true ⟨0, false⟩ = (⟨7, false⟩, false, true) := by
  exact ⟨rfl, by decide⟩

/-- C8 amended: a connected transition records the current time as online-at,
warns exactly when the absolute skew is strictly greater than two minutes,
changes no other session state (no clock adjustment, hasPKIDoc untouched), and
a disconnected operation changes nothing. -/
theorem connStatusChange_skew_warning (now : Nat) (skew : Int) (st : SessionState) :
    connStatusChange now skew true st =
      ({ st with onlineAt := now },
        decide (skewWarnDelta < if skew < 0 then -skew else skew), true) ∧
    ((connStatusChange now skew true st).2.1 = true ↔
      skewWarnDelta < (if skew < 0 then -skew else skew)) ∧
    (connStatusChange now skew true st).1.hasPKIDoc = st.hasPKIDoc ∧
    connStatusChange now skew false st = (st, false, false) := by
  refine ⟨rfl, ?_, rfl, rfl⟩
  simp [connStatusChange]

/-- C9: from a fresh state, Shutdown runs the teardown exactly once and in the
fixed order (stop the session when one runs, close the fatal-error channel,
close the halted channel); any number of further Shutdown calls is a no-op, and
Wait blocks before shutdown and unblocks once it completes. -/
theorem shutdown_once_ordered (st : SprayState)
    (h0 : st.haltOnceDone = false) (h1 : st.teardown = [])
    (h2 : st.haltedChClosed = false) :
    (Shutdown st).teardown =
      (if st.sessionPresent then [TeardownEvent.stopSession] else []) ++
        [TeardownEvent.closeFatalCh, TeardownEvent.closeHaltedCh] ∧
    (∀ n : Nat, Shutdown^[n] (Shutdown st) = Shutdown st) ∧
    waitUnblocked st = false ∧
    waitUnblocked (Shutdown st) = true := by
  have hsh : Shutdown st = haltTeardown { st with haltOnceDone := true } := by
    simp [Shutdown, h0]
  have hfix : Shutdown (Shutdown st) = Shutdown st := by
    rw [hsh]
    simp [Shutdown, haltTeardown]
  refine ⟨?_, ?_, ?_, ?_⟩
  · rw [hsh]
    simp [haltTeardown, h1]
  · intro n
    induction n with
    | zero => rfl
    | succ k ihn =>
      rw [Function.iterate_succ_apply, hfix, ihn]
  · simp [waitUnblocked, h2]
  · rw [hsh]
    simp [waitUnblocked, haltTeardown]

/-- C9 witness: a fresh instance with a running session: teardown happens once
in order and iterated Shutdown calls change nothing further. -/
theorem shutdown_once_ordered_witness :
    (Shutdown ⟨false, true, false, false, []⟩).teardown =
      [TeardownEvent.stopSession, TeardownEvent.closeFatalCh,
        TeardownEvent.closeHaltedCh] ∧
    (∀ n : Nat, Shutdown^[n] (Shutdown ⟨false, true, false, false, []⟩) =
      Shutdown ⟨false, true, false, false, []⟩) ∧
    waitUnblocked ⟨false, true, false, false, []⟩ = false ∧
    waitUnblocked (Shutdown ⟨false, true, false, false, []⟩) = true :=
  shutdown_once_ordered ⟨false, true, false, false, []⟩ rfl rfl rfl

/-- C10: every descriptor FindServices returns pairs the name of a provider
advertising the capability with the string value of that entry's "endpoint"
parameter; FindServices is total exactly when every matching entry maps
"endpoint" to a string, and on any failing matching entry GetService panics
instead of returning NotFound. -/
theorem findServices_descriptor_shape (cap : String) (doc : Document) :
    (∀ sds, FindServices cap doc = some sds →
      ∀ sd ∈ sds, ∃ p ∈ doc.providers, sd.provider = p.name ∧
        ∃ params, (cap, params) ∈ p.kaetzchen ∧
          params.lookup "endpoint" = some (Value.str sd.name)) ∧
    (FindServices cap doc = none ↔
      ∃ p ∈ doc.providers, ∃ e ∈ p.kaetzchen, e.1 = cap ∧ endpointString e.2 = none) ∧
    (FindServices cap doc = none →
      ∀ draw : Nat, GetService (some doc) cap draw = GetServiceResult.panicked) := by
  refine ⟨?_, ?_, ?_⟩
  · intro sds h
    exact findServicesList_some_mem cap doc.providers sds h
  · exact findServicesList_none_iff cap doc.providers
  · intro h draw
    simp [GetService, h]

end Spray
